import Mathlib

/- Shallow embedding of the contracts module of the contractify backend
   (src/app/modules/contracts: models.py, repository.py, service.py, schemas.py).

   The relational store is a record of lists of rows.  SQLAlchemy flushes are
   modelled as pure state transitions that enforce the unique and check
   constraints declared in models.py (and created by alembic
   001_initial_schema.py).  Enum-valued columns are given inductive types,
   which subsumes the corresponding enum CHECK constraints; the numeric
   CHECK constraints (version > 0, signing_order > 0) hold by construction
   because the code only ever writes positive values of type Nat.  The
   title CHECK constraint (char_length(title) >= 3) is modelled on inserted
   rows and on updates that write the title column.  Timestamps are
   naturals; uuid generation is modelled by passing fresh ids as arguments.
   Each service operation threads the store explicitly and returns the
   session state as it stands when an exception is raised. -/

namespace Contractify

inductive ContractStatus where
  | DRAFT
  | GENERATED
  | SIGNING
  | SIGNED
  | CANCELLED
  | EXPIRED
  deriving DecidableEq

inductive VersionSource where
  | AI
  | USER
  deriving DecidableEq

inductive PartyRole where
  | HOST
  | GUEST
  | WITNESS
  deriving DecidableEq

inductive SignatureStatus where
  | PENDING
  | INVITED
  | SIGNED
  deriving DecidableEq

inductive ActivityAction where
  | CREATED
  | UPDATED
  | GENERATED
  | SIGNED
  | SENT
  | CANCELLED
  deriving DecidableEq

/-- String rendered for a status value, as Python does when formatting
the status column into exception messages. -/
def ContractStatus.toName : ContractStatus → String
  | .DRAFT => "DRAFT"
  | .GENERATED => "GENERATED"
  | .SIGNING => "SIGNING"
  | .SIGNED => "SIGNED"
  | .CANCELLED => "CANCELLED"
  | .EXPIRED => "EXPIRED"

/-- STATUS_TRANSITIONS from service.py lines 44-51.  The Python dict covers
all six statuses, and `update_status` reads it with `.get(status, [])`, so a
total function is faithful. -/
def STATUS_TRANSITIONS : ContractStatus → List ContractStatus
  | .DRAFT => [.GENERATED, .CANCELLED]
  | .GENERATED => [.DRAFT, .SIGNING, .CANCELLED]
  | .SIGNING => [.SIGNED, .CANCELLED, .EXPIRED]
  | .SIGNED => []
  | .CANCELLED => []
  | .EXPIRED => []

/-- Structured payloads that the service writes into ActivityLog.details
(the code passes small dict literals; each constructor is one literal shape). -/
inductive LogDetails where
  | empty
  | duplicatedFrom (srcId : String)
  | fields (fs : List String)
  | field (f : String)
  | statusChange (oldStatus newStatus : ContractStatus) (reason : Option String)
  deriving DecidableEq

/-- Row of contracts.contracts.  The JSONB metadata map is read by the
service only at the keys documentUrl and documentHash, modelled as the two
optional fields. -/
structure ContractRow where
  id : String
  title : String
  contractType : String
  templateId : String
  ownerUserId : String
  status : ContractStatus
  documentUrl : Option String
  documentHash : Option String
  createdAt : Nat
  updatedAt : Nat
  signedAt : Option Nat
  deletedAt : Option Nat
  deriving DecidableEq

/-- Row of contracts.contract_versions. -/
structure VersionRow where
  id : String
  contractId : String
  version : Nat
  content : String
  source : VersionSource
  createdBy : String
  createdAt : Nat
  deriving DecidableEq

/-- Row of contracts.contract_parties. -/
structure PartyRow where
  id : String
  contractId : String
  role : PartyRole
  name : String
  email : String
  signatureStatus : SignatureStatus
  signedAt : Option Nat
  signingOrder : Nat
  createdAt : Nat
  deriving DecidableEq

/-- Row of contracts.activity_logs. -/
structure ActivityRow where
  id : String
  contractId : String
  action : ActivityAction
  userId : String
  userName : String
  details : LogDetails
  timestamp : Nat
  deriving DecidableEq

/-- The relational store backing the contracts module. -/
structure Store where
  contracts : List ContractRow
  versions : List VersionRow
  parties : List PartyRow
  logs : List ActivityRow
  deriving DecidableEq

/-- Failure outcomes.  Each constructor corresponds to one raise site kind:
the four AppException subclasses of shared/exceptions.py (the two distinct
BadRequestException messages of `update_status` get their own constructors,
matching the InvalidTransition / ValidationError taxonomy of the spec),
pydantic request validation, and database constraint violations, which no
handler converts and which therefore surface as generic 500 errors. -/
inductive Err where
  | notFound (msg : String)
  | forbidden (msg : String)
  | conflict (msg : String)
  | invalidTransition (src dst : ContractStatus)
  | missingReason
  | validation (msg : String)
  | integrityError (constraint : String)
  deriving DecidableEq

/-- CurrentUser from app/core/auth.py as consumed by the service. -/
structure CurrentUser where
  id : String
  email : String
  name : Option String
  deriving DecidableEq

/-- Python `user.name or user.email` (service.py line 137): an absent or
empty name falls back to the email. -/
def displayName (u : CurrentUser) : String :=
  match u.name with
  | some n => if n = "" then u.email else n
  | none => u.email

/-! Repository layer (repository.py). -/

/-- ContractRepository.get_by_id: first row with the given id, excluding
soft-deleted rows unless includeDeleted. -/
def getById (s : Store) (contractId : String) (includeDeleted : Bool) :
    Option ContractRow :=
  s.contracts.find? (fun c =>
    c.id == contractId && (includeDeleted || c.deletedAt == none))

/-- The None-filtered kwargs accepted by ContractRepository.update as called
from the service (title, status, signed_at). -/
structure ContractUpdate where
  title : Option String
  status : Option ContractStatus
  signedAt : Option Nat
  deriving DecidableEq

/-- Database CHECK constraint contracts_title_min_length, evaluated when the
update writes the title column. -/
def titleUpdateOk (u : ContractUpdate) : Bool :=
  match u.title with
  | some t => 3 ≤ t.length
  | none => true

/-- Effect of the UPDATE statement on one row (updated_at has onupdate now()). -/
def updateRow (contractId : String) (u : ContractUpdate) (now : Nat)
    (c : ContractRow) : ContractRow :=
  if c.id == contractId then
    { c with
      title := match u.title with | some t => t | none => c.title
      status := match u.status with | some st => st | none => c.status
      signedAt := match u.signedAt with | some t => some t | none => c.signedAt
      updatedAt := now }
  else c

/-- ContractRepository.update restricted to the fields the service passes. -/
def repoUpdateContract (s : Store) (contractId : String) (u : ContractUpdate)
    (now : Nat) : Except Err Store :=
  if titleUpdateOk u then
    .ok { s with contracts := s.contracts.map (updateRow contractId u now) }
  else
    .error (.integrityError "contracts_title_min_length")

/-- Insertion of a contract row; the flush enforces the title CHECK
constraint. -/
def contractInsert (s : Store) (c : ContractRow) : Except Err Store :=
  if 3 ≤ c.title.length then .ok { s with contracts := s.contracts ++ [c] }
  else .error (.integrityError "contracts_title_min_length")

/-- ContractRepository.soft_delete: sets deleted_at where it is still null;
returns whether a row was hit. -/
def softDelete (s : Store) (contractId : String) (now : Nat) : Bool × Store :=
  (s.contracts.any (fun c => c.id == contractId && c.deletedAt == none),
   { s with contracts := s.contracts.map (fun c =>
       if c.id == contractId && c.deletedAt == none then
         { c with deletedAt := some now } else c) })

/-- All version rows of one contract, in insertion order. -/
def versionsOf (s : Store) (contractId : String) : List VersionRow :=
  s.versions.filter (fun v => v.contractId == contractId)

/-- Accumulator for ORDER BY version DESC LIMIT 1: keeps the row with the
largest version number. -/
def pickLatest (acc : Option VersionRow) (v : VersionRow) : Option VersionRow :=
  match acc with
  | none => some v
  | some w => if w.version < v.version then some v else some w

/-- ContractVersionRepository.get_latest. -/
def getLatest (s : Store) (contractId : String) : Option VersionRow :=
  (versionsOf s contractId).foldl pickLatest none

/-- The next version number computed by ContractVersionRepository.create:
latest.version + 1, defaulting to 1 when no version exists. -/
def nextVersionNumber (s : Store) (contractId : String) : Nat :=
  match getLatest s contractId with
  | some latest => latest.version + 1
  | none => 1

/-- ContractVersionRepository.create.  The next version number is computed
from the rows visible at the initial read (sRead); the flush then enforces
the version_unique_per_contract constraint against the rows present at
flush time (sFlush).  Separating the two store arguments exposes the
interleaving window between the read and the flush; sequential calls pass
the same store for both.  The function performs a single insert attempt:
the source has no retry logic. -/
def versionCreateAt (sRead sFlush : Store) (contractId content : String)
    (source : VersionSource) (createdBy freshId : String) (now : Nat) :
    Except Err (VersionRow × Store) :=
  let n := nextVersionNumber sRead contractId
  let row : VersionRow :=
    { id := freshId, contractId := contractId, version := n, content := content,
      source := source, createdBy := createdBy, createdAt := now }
  if sFlush.versions.any (fun v => v.contractId == contractId && v.version == n) then
    .error (.integrityError "version_unique_per_contract")
  else
    .ok (row, { sFlush with versions := sFlush.versions ++ [row] })

/-- ContractVersionRepository.create in a sequential (race-free) call. -/
def versionCreate (s : Store) (contractId content : String)
    (source : VersionSource) (createdBy freshId : String) (now : Nat) :
    Except Err (VersionRow × Store) :=
  versionCreateAt s s contractId content source createdBy freshId now

/-- Modelled from the spec: the race-safe append_version described in
spec sections 4.1 and 7, which is absent from
ContractVersionRepository.create in the source.  On a (contract_id, version)
conflict at flush time it retries with a freshly computed next number, up to
the given total number of attempts. -/
def appendVersionRetrySpec (attempts : Nat) (sRead sFlush : Store)
    (contractId content : String) (source : VersionSource)
    (createdBy freshId : String) (now : Nat) :
    Except Err (VersionRow × Store) :=
  match attempts with
  | 0 => .error (.integrityError "version_unique_per_contract")
  | a + 1 =>
    match versionCreateAt sRead sFlush contractId content source createdBy freshId now with
    | .ok r => .ok r
    | .error _ =>
      appendVersionRetrySpec a sFlush sFlush contractId content source createdBy freshId now

/-- ContractPartyRepository.get_by_id. -/
def getPartyById (s : Store) (partyId : String) : Option PartyRow :=
  s.parties.find? (fun p => p.id == partyId)

/-- ContractPartyRepository.create: signature_status is not passed and takes
the column default PENDING (models.py line 127); the flush enforces the
party_email_unique_per_contract constraint. -/
def partyCreate (s : Store) (contractId : String) (role : PartyRole)
    (name email : String) (order : Nat) (freshId : String) (now : Nat) :
    Except Err (PartyRow × Store) :=
  let row : PartyRow :=
    { id := freshId, contractId := contractId, role := role, name := name,
      email := email, signatureStatus := .PENDING, signedAt := none,
      signingOrder := order, createdAt := now }
  if s.parties.any (fun p => p.contractId == contractId && p.email == email) then
    .error (.integrityError "party_email_unique_per_contract")
  else
    .ok (row, { s with parties := s.parties ++ [row] })

/-- ContractPartyRepository.delete. -/
def partyDelete (s : Store) (partyId contractId : String) : Bool × Store :=
  (s.parties.any (fun p => p.id == partyId && p.contractId == contractId),
   { s with parties := s.parties.filter (fun p =>
       !(p.id == partyId && p.contractId == contractId)) })

/-- ContractPartyRepository.update_status.  Defined for completeness: no code
path in the repository module ever calls it. -/
def partyUpdateStatus (s : Store) (partyId : String) (status : SignatureStatus)
    (signedAt : Option Nat) : Store :=
  { s with parties := s.parties.map (fun p =>
      if p.id == partyId then
        { p with
          signatureStatus := status
          signedAt := match signedAt with | some t => some t | none => p.signedAt }
      else p) }

/-- ActivityLogRepository.create. -/
def activityCreate (s : Store) (contractId : String) (action : ActivityAction)
    (userId userName : String) (details : Option LogDetails)
    (freshId : String) (now : Nat) : Store :=
  { s with logs := s.logs ++
      [{ id := freshId, contractId := contractId, action := action,
         userId := userId, userName := userName,
         details := match details with | some d => d | none => .empty,
         timestamp := now }] }

/-- ContractService._log_activity. -/
def logActivity (s : Store) (contractId : String) (action : ActivityAction)
    (u : CurrentUser) (details : Option LogDetails) (freshId : String)
    (now : Nat) : Store :=
  activityCreate s contractId action u.id (displayName u) details freshId now

/-! Request schemas (schemas.py). -/

/-- CreateContractRequest; its title field carries pydantic min_length 3. -/
structure CreateContractRequest where
  title : String
  templateId : String
  contractType : String
  deriving DecidableEq

/-- UpdateContractRequest: only a nullable title, with no length bound. -/
structure UpdateContractRequest where
  title : Option String
  deriving DecidableEq

/-- UpdateContentRequest; the source field defaults to USER when absent, and
can only be none when the client sends an explicit null. -/
structure UpdateContentRequest where
  content : String
  source : Option VersionSource
  deriving DecidableEq

/-- UpdateStatusRequest. -/
structure UpdateStatusRequest where
  status : ContractStatus
  reason : Option String
  deriving DecidableEq

/-- AddPartyRequest. -/
structure AddPartyRequest where
  role : PartyRole
  name : String
  email : String
  order : Option Nat
  deriving DecidableEq

/-- PublicContractView response schema, restricted to the fields
get_public_view populates. -/
structure PublicContractView where
  id : String
  title : String
  content : Option String
  documentUrl : Option String
  deriving DecidableEq

/-- Python truthiness of `not data.reason`: the reason is missing when it is
absent or the empty string. -/
def reasonMissing (r : Option String) : Bool :=
  match r with
  | none => true
  | some x => x == ""

/-- Python `data.order or 1` (service.py line 487) combined with the schema
default 1: absent or zero becomes 1. -/
def orderValue (o : Option Nat) : Nat :=
  match o with
  | some k => if k == 0 then 1 else k
  | none => 1

/-- The terminal statuses list used by update_content / add_party guards. -/
def terminalStatuses : List ContractStatus := [.SIGNED, .CANCELLED, .EXPIRED]

/-! Service layer (service.py).  Each operation returns the outcome together
with the session state at return or at the raise; every raise in these
operations happens while the session still equals the state recorded in the
returned pair (failed flushes write nothing). -/

/-- ContractService.create_contract: pydantic validates the request first,
then the row is inserted in status DRAFT and a CREATED entry is logged. -/
def createContract (s : Store) (u : CurrentUser) (req : CreateContractRequest)
    (freshContractId freshLogId : String) (now : Nat) :
    Except Err ContractRow × Store :=
  if req.title.length < 3 then (.error (.validation "title: min_length 3"), s)
  else
    let c : ContractRow :=
      { id := freshContractId, title := req.title,
        contractType := req.contractType, templateId := req.templateId,
        ownerUserId := u.id, status := .DRAFT, documentUrl := none,
        documentHash := none, createdAt := now, updatedAt := now,
        signedAt := none, deletedAt := none }
    match contractInsert s c with
    | .error e => (.error e, s)
    | .ok s1 => (.ok c, logActivity s1 freshContractId .CREATED u none freshLogId now)

/-- ContractService.get_contract without the schema conversion. -/
def getContract (s : Store) (contractId : String) (u : CurrentUser) :
    Except Err ContractRow :=
  match getById s contractId false with
  | none => .error (.notFound "Contract not found")
  | some c =>
    if c.ownerUserId ≠ u.id then
      .error (.forbidden "You do not have access to this contract")
    else .ok c

/-- ContractService.update_contract (metadata patch). -/
def updateContract (s : Store) (contractId : String) (u : CurrentUser)
    (req : UpdateContractRequest) (freshLogId : String) (now : Nat) :
    Except Err Unit × Store :=
  match getById s contractId false with
  | none => (.error (.notFound "Contract not found"), s)
  | some c =>
    if c.ownerUserId ≠ u.id then
      (.error (.forbidden "You do not have access to this contract"), s)
    else
      match req.title with
      | none => (.ok (), s)
      | some t =>
        match repoUpdateContract s contractId
            { title := some t, status := none, signedAt := none } now with
        | .error e => (.error e, s)
        | .ok s1 =>
          (.ok (), logActivity s1 contractId .UPDATED u
            (some (.fields ["title"])) freshLogId now)

/-- ContractService.delete_contract. -/
def deleteContract (s : Store) (contractId : String) (u : CurrentUser)
    (now : Nat) : Except Err Unit × Store :=
  match getById s contractId false with
  | none => (.error (.notFound "Contract not found"), s)
  | some c =>
    if c.ownerUserId ≠ u.id then
      (.error (.forbidden "You do not have access to this contract"), s)
    else if c.status = .SIGNED then
      (.error (.conflict "Cannot delete signed contract"), s)
    else (.ok (), (softDelete s contractId now).2)

/-- ContractService.duplicate_contract together with
ContractRepository.duplicate: new DRAFT contract with suffixed title and
copied metadata, plus a version-1 copy of the latest content when the source
has versions, then a CREATED log entry. -/
def duplicateContract (s : Store) (contractId : String) (u : CurrentUser)
    (freshContractId freshVersionId freshLogId : String) (now : Nat) :
    Except Err ContractRow × Store :=
  match getById s contractId false with
  | none => (.error (.notFound "Contract not found"), s)
  | some c =>
    if c.ownerUserId ≠ u.id then
      (.error (.forbidden "You do not have access to this contract"), s)
    else
      let nc : ContractRow :=
        { id := freshContractId, title := c.title ++ " (Copy)",
          contractType := c.contractType, templateId := c.templateId,
          ownerUserId := u.id, status := .DRAFT,
          documentUrl := c.documentUrl, documentHash := c.documentHash,
          createdAt := now, updatedAt := now, signedAt := none,
          deletedAt := none }
      match contractInsert s nc with
      | .error e => (.error e, s)
      | .ok s1 =>
        match getLatest s contractId with
        | none =>
          (.ok nc, logActivity s1 freshContractId .CREATED u
            (some (.duplicatedFrom contractId)) freshLogId now)
        | some latest =>
          if s1.versions.any (fun v =>
              v.contractId == freshContractId && v.version == 1) then
            (.error (.integrityError "version_unique_per_contract"), s1)
          else
            let vrow : VersionRow :=
              { id := freshVersionId, contractId := freshContractId,
                version := 1, content := latest.content, source := .USER,
                createdBy := u.id, createdAt := now }
            let s2 := { s1 with versions := s1.versions ++ [vrow] }
            (.ok nc, logActivity s2 freshContractId .CREATED u
              (some (.duplicatedFrom contractId)) freshLogId now)

/-- ContractService.update_content. -/
def updateContent (s : Store) (contractId : String) (u : CurrentUser)
    (req : UpdateContentRequest) (freshVersionId freshLogId : String)
    (now : Nat) : Except Err Unit × Store :=
  match getById s contractId false with
  | none => (.error (.notFound "Contract not found"), s)
  | some c =>
    if c.ownerUserId ≠ u.id then
      (.error (.forbidden "You do not have access to this contract"), s)
    else if c.status ∈ terminalStatuses then
      (.error (.conflict
        ("Cannot update content of " ++ c.status.toName ++ " contract")), s)
    else
      let src := match req.source with | some v => v | none => .USER
      match versionCreate s contractId req.content src u.id freshVersionId now with
      | .error e => (.error e, s)
      | .ok (_, s1) =>
        if c.status = .DRAFT ∧ req.source = some .AI then
          match repoUpdateContract s1 contractId
              { title := none, status := some .GENERATED, signedAt := none } now with
          | .error e => (.error e, s1)
          | .ok s2 => (.ok (), logActivity s2 contractId .GENERATED u none freshLogId now)
        else
          (.ok (), logActivity s1 contractId .UPDATED u
            (some (.field "content")) freshLogId now)

/-- ContractService.update_status (the request_transition of the spec). -/
def updateStatus (s : Store) (contractId : String) (u : CurrentUser)
    (req : UpdateStatusRequest) (freshLogId : String) (now : Nat) :
    Except Err Unit × Store :=
  match getById s contractId false with
  | none => (.error (.notFound "Contract not found"), s)
  | some c =>
    if c.ownerUserId ≠ u.id then
      (.error (.forbidden "You do not have access to this contract"), s)
    else if req.status ∉ STATUS_TRANSITIONS c.status then
      (.error (.invalidTransition c.status req.status), s)
    else if req.status = .CANCELLED ∧ reasonMissing req.reason then
      (.error .missingReason, s)
    else
      match repoUpdateContract s contractId
          { title := none, status := some req.status,
            signedAt := if req.status = .SIGNED then some now else none } now with
      | .error e => (.error e, s)
      | .ok s1 =>
        let action := if req.status = .CANCELLED then
          ActivityAction.CANCELLED else ActivityAction.UPDATED
        (.ok (), logActivity s1 contractId action u
          (some (.statusChange c.status req.status req.reason)) freshLogId now)

/-- ContractService.add_party.  There is no duplicate-email check in the
service; only the flush inside partyCreate can reject a duplicate. -/
def addParty (s : Store) (contractId : String) (u : CurrentUser)
    (req : AddPartyRequest) (freshPartyId : String) (now : Nat) :
    Except Err PartyRow × Store :=
  match getById s contractId false with
  | none => (.error (.notFound "Contract not found"), s)
  | some c =>
    if c.ownerUserId ≠ u.id then
      (.error (.forbidden "You do not have access to this contract"), s)
    else if c.status ∈ terminalStatuses then
      (.error (.conflict
        ("Cannot add party to " ++ c.status.toName ++ " contract")), s)
    else
      match partyCreate s contractId req.role req.name req.email
          (orderValue req.order) freshPartyId now with
      | .error e => (.error e, s)
      | .ok (p, s1) => (.ok p, s1)

/-- ContractService.remove_party. -/
def removeParty (s : Store) (contractId partyId : String) (u : CurrentUser) :
    Except Err Unit × Store :=
  match getById s contractId false with
  | none => (.error (.notFound "Contract not found"), s)
  | some c =>
    if c.ownerUserId ≠ u.id then
      (.error (.forbidden "You do not have access to this contract"), s)
    else
      match getPartyById s partyId with
      | none => (.error (.notFound "Party not found"), s)
      | some p =>
        if p.contractId ≠ contractId then
          (.error (.notFound "Party not found"), s)
        else if p.signatureStatus = .SIGNED then
          (.error (.conflict "Cannot remove party that has already signed"), s)
        else (.ok (), (partyDelete s partyId contractId).2)

/-- ContractService.get_public_view: the token argument is accepted but never
inspected (service.py lines 524-547); no ownership, party or token check is
performed. -/
def getPublicView (s : Store) (contractId : String) (token : String) :
    Except Err PublicContractView :=
  match getById s contractId false with
  | none => .error (.notFound "Contract not found")
  | some c =>
    .ok { id := c.id, title := c.title,
          content := match getLatest s contractId with
            | some v => some v.content
            | none => none,
          documentUrl := c.documentUrl }

/-! Query layer: stats, recent, pending and listing (repository.py). -/

/-- Owner-scoped live-row filter shared by the stats and listing queries. -/
def liveOwned (ownerUserId : String) (c : ContractRow) : Bool :=
  c.ownerUserId == ownerUserId && c.deletedAt == none

/-- ContractStats result of ContractRepository.get_stats; by_status is the
count per status (the Python dict read back with a 0 default). -/
structure ContractStats where
  total : Nat
  byStatus : ContractStatus → Nat
  pendingSignatures : Nat
  signedThisMonth : Nat

/-- ContractRepository.get_stats.  The first three queries filter
deleted_at IS NULL; the signed-this-month query filters only on owner,
status SIGNED and signed_at at or after the start of the current month. -/
def getStats (s : Store) (ownerUserId : String) (monthStart : Nat) :
    ContractStats :=
  { total := (s.contracts.filter (liveOwned ownerUserId)).length
    byStatus := fun st =>
      (s.contracts.filter (fun c =>
        liveOwned ownerUserId c && c.status == st)).length
    pendingSignatures :=
      (s.contracts.filter (fun c =>
        liveOwned ownerUserId c && c.status == ContractStatus.SIGNING)).length
    signedThisMonth :=
      (s.contracts.filter (fun c =>
        c.ownerUserId == ownerUserId && c.status == ContractStatus.SIGNED &&
        (match c.signedAt with
         | some t => decide (monthStart ≤ t)
         | none => false))).length }

/-- Insertion into a list sorted by the given Bool comparison. -/
def insertLe (le : ContractRow → ContractRow → Bool) (x : ContractRow) :
    List ContractRow → List ContractRow
  | [] => [x]
  | y :: ys => if le x y then x :: y :: ys else y :: insertLe le x ys

/-- Sorting used to model the ORDER BY clauses (the SQL sort algorithm is
unspecified; only the ordering relation matters). -/
def sortRows (le : ContractRow → ContractRow → Bool) :
    List ContractRow → List ContractRow
  | [] => []
  | x :: xs => insertLe le x (sortRows le xs)

/-- ContractRepository.get_recent: live rows of the owner, ORDER BY
updated_at DESC, LIMIT limit. -/
def getRecent (s : Store) (ownerUserId : String) (limit : Nat) :
    List ContractRow :=
  (sortRows (fun a b => decide (b.updatedAt ≤ a.updatedAt))
    (s.contracts.filter (liveOwned ownerUserId))).take limit

/-- ContractRepository.get_pending: live rows of the owner in a non-terminal
status, ORDER BY updated_at DESC. -/
def getPending (s : Store) (ownerUserId : String) : List ContractRow :=
  sortRows (fun a b => decide (b.updatedAt ≤ a.updatedAt))
    (s.contracts.filter (fun c => liveOwned ownerUserId c &&
      (c.status == ContractStatus.DRAFT || c.status == ContractStatus.GENERATED ||
       c.status == ContractStatus.SIGNING)))

/-- Optional filters of ContractRepository.list_contracts. -/
structure ListFilters where
  status : Option ContractStatus
  search : Option String
  templateId : Option String
  fromDate : Option Nat
  toDate : Option Nat
  deriving DecidableEq

/-- Bool test that the first character list occurs as a prefix of the
second. -/
def prefixChars : List Char → List Char → Bool
  | [], _ => true
  | _ :: _, [] => false
  | x :: xs, y :: ys => x == y && prefixChars xs ys

/-- Bool test that the first character list occurs contiguously inside the
second. -/
def containsChars (needle : List Char) : List Char → Bool
  | [] => prefixChars needle []
  | y :: ys => prefixChars needle (y :: ys) || containsChars needle ys

/-- Case-insensitive substring match modelling ILIKE with wildcards on both
sides. -/
def ilikeContains (fieldValue pat : String) : Bool :=
  containsChars pat.toLower.data fieldValue.toLower.data

/-- Row predicate of the base query of list_contracts with its optional
filters. -/
def listPred (ownerUserId : String) (f : ListFilters) (c : ContractRow) : Bool :=
  c.ownerUserId == ownerUserId && c.deletedAt == none &&
  (match f.status with | some st => c.status == st | none => true) &&
  (match f.search with
   | some q => ilikeContains c.title q || ilikeContains c.contractType q
   | none => true) &&
  (match f.templateId with | some t => c.templateId == t | none => true) &&
  (match f.fromDate with | some d => decide (d ≤ c.createdAt) | none => true) &&
  (match f.toDate with | some d => decide (c.createdAt ≤ d) | none => true)

/-- ORDER BY key comparison of list_contracts: sort_by selects the column
(createdAt is the fallback), status sorts by its string form as the
database does. -/
def keyLe (sortBy : String) (a b : ContractRow) : Bool :=
  if sortBy == "updatedAt" then decide (a.updatedAt ≤ b.updatedAt)
  else if sortBy == "title" then decide (a.title ≤ b.title)
  else if sortBy == "status" then decide (a.status.toName ≤ b.status.toName)
  else decide (a.createdAt ≤ b.createdAt)

/-- Direction handling of list_contracts: anything but asc means desc. -/
def listSortLe (sortBy sortOrder : String) (a b : ContractRow) : Bool :=
  if sortOrder == "asc" then keyLe sortBy a b else keyLe sortBy b a

/-- ContractRepository.list_contracts: filter, count, sort, paginate
(1-based page). -/
def listContracts (s : Store) (ownerUserId : String) (f : ListFilters)
    (page pageSize : Nat) (sortBy sortOrder : String) :
    List ContractRow × Nat :=
  let base := s.contracts.filter (listPred ownerUserId f)
  (((sortRows (listSortLe sortBy sortOrder) base).drop
      ((page - 1) * pageSize)).take pageSize,
   base.length)

/-- The store with the soft-deleted contracts removed: what every read path
is meant to observe. -/
def liveOnly (s : Store) : Store :=
  { s with contracts := s.contracts.filter (fun c => c.deletedAt == none) }

/-! The mutating operations of the contracts service as one step relation,
used to state store invariants.  Read operations do not modify the store. -/

/-- One mutating call of the contracts service public API. -/
inductive Op where
  | create (u : CurrentUser) (req : CreateContractRequest)
      (freshContractId freshLogId : String) (now : Nat)
  | updateMeta (contractId : String) (u : CurrentUser)
      (req : UpdateContractRequest) (freshLogId : String) (now : Nat)
  | deleteC (contractId : String) (u : CurrentUser) (now : Nat)
  | duplicateC (contractId : String) (u : CurrentUser)
      (freshContractId freshVersionId freshLogId : String) (now : Nat)
  | content (contractId : String) (u : CurrentUser)
      (req : UpdateContentRequest) (freshVersionId freshLogId : String) (now : Nat)
  | statusChange (contractId : String) (u : CurrentUser)
      (req : UpdateStatusRequest) (freshLogId : String) (now : Nat)
  | partyAdd (contractId : String) (u : CurrentUser) (req : AddPartyRequest)
      (freshPartyId : String) (now : Nat)
  | partyRemove (contractId partyId : String) (u : CurrentUser)

/-- The session state after one service call, successful or not (on failure
this is the state the transaction would roll back from; every invariant we
prove holds for it as well, so it holds a fortiori for the committed
state). -/
def applyOp (s : Store) (op : Op) : Store :=
  match op with
  | .create u req fid lid now => (createContract s u req fid lid now).2
  | .updateMeta cid u req lid now => (updateContract s cid u req lid now).2
  | .deleteC cid u now => (deleteContract s cid u now).2
  | .duplicateC cid u fid vid lid now =>
      (duplicateContract s cid u fid vid lid now).2
  | .content cid u req vid lid now => (updateContent s cid u req vid lid now).2
  | .statusChange cid u req lid now => (updateStatus s cid u req lid now).2
  | .partyAdd cid u req pid now => (addParty s cid u req pid now).2
  | .partyRemove cid pid u => (removeParty s cid pid u).2

/-! Derived notions used by the statements. -/

/-- The version numbers recorded for one contract, in insertion order. -/
def versionNumbersOf (s : Store) (contractId : String) : List Nat :=
  (versionsOf s contractId).map VersionRow.version

/-- Data-model invariant: every stored contract title has length at least
three. -/
def TitleInv (s : Store) : Prop :=
  ∀ c ∈ s.contracts, 3 ≤ c.title.length

/-- Invariant: every stored party still has the default signature status. -/
def AllPending (s : Store) : Prop :=
  ∀ p ∈ s.parties, p.signatureStatus = SignatureStatus.PENDING

/-- Whether a failure is an AppException that the registered handlers of
shared/exceptions.py map to a structured 4xx business error; integrity
errors have no handler and fall through to the generic 500 response. -/
def Err.isBusinessError : Err → Bool
  | .notFound _ => true
  | .forbidden _ => true
  | .conflict _ => true
  | .invalidTransition _ _ => true
  | .missingReason => true
  | .validation _ => true
  | .integrityError _ => false

/-! Concrete sample data for witnesses and counterexamples. -/

/-- Sample authenticated user. -/
def sampleUser : CurrentUser :=
  { id := "u1", email := "u1@example.com", name := none }

/-- Sample live DRAFT contract owned by the sample user. -/
def draftRow : ContractRow :=
  { id := "c1", title := "Lease Agreement", contractType := "lease",
    templateId := "t1", ownerUserId := "u1", status := .DRAFT,
    documentUrl := none, documentHash := none, createdAt := 0, updatedAt := 0,
    signedAt := none, deletedAt := none }

/-- Store holding just the sample draft contract. -/
def draftStore : Store := { contracts := [draftRow], versions := [], parties := [], logs := [] }

/-- Sample live SIGNED contract. -/
def signedRow : ContractRow :=
  { draftRow with id := "c5", status := .SIGNED, signedAt := some 100 }

/-- Store holding just the signed contract. -/
def signedStore : Store := { contracts := [signedRow], versions := [], parties := [], logs := [] }

/-- Store with no rows at all. -/
def emptyStore : Store := { contracts := [], versions := [], parties := [], logs := [] }

/-- Version 1 of the sample draft contract. -/
def versionOne : VersionRow :=
  { id := "va", contractId := "c1", version := 1, content := "alpha",
    source := .USER, createdBy := "u1", createdAt := 0 }

/-- Version 2 of the sample draft contract. -/
def versionTwo : VersionRow :=
  { versionOne with id := "vb", version := 2, content := "beta", createdAt := 1 }

/-- Store where the draft contract already has versions 1 and 2. -/
def twoVersionStore : Store :=
  { contracts := [draftRow], versions := [versionOne, versionTwo], parties := [], logs := [] }

/-- Flush-time store for the version race: a concurrent writer has already
committed version 1 of contract c1. -/
def raceFlushStore : Store :=
  { contracts := [], versions := [versionOne], parties := [], logs := [] }

/-- Sample pending party with a known email on contract c1. -/
def guestParty : PartyRow :=
  { id := "p1", contractId := "c1", role := .GUEST, name := "Ann",
    email := "ann@example.com", signatureStatus := .PENDING, signedAt := none,
    signingOrder := 1, createdAt := 0 }

/-- Second live DRAFT contract of the same owner. -/
def otherDraftRow : ContractRow := { draftRow with id := "c2" }

/-- Store with two draft contracts and one party on the first. -/
def partyStore : Store :=
  { contracts := [draftRow, otherDraftRow], versions := [], parties := [guestParty], logs := [] }

/-- Soft-deleted SIGNED contract whose signed_at falls in the current
month. -/
def deletedSignedRow : ContractRow :=
  { draftRow with
    id := "c7"
    status := .SIGNED
    signedAt := some 100
    deletedAt := some 60 }

/-- Store holding only the soft-deleted signed contract. -/
def deletedSignedStore : Store :=
  { contracts := [deletedSignedRow], versions := [], parties := [], logs := [] }

/-! Helper lemmas about the repository layer. -/

theorem updateRow_id_deletedAt (contractId : String) (u : ContractUpdate)
    (now : Nat) (c : ContractRow) :
    (updateRow contractId u now c).id = c.id ∧
    (updateRow contractId u now c).deletedAt = c.deletedAt := by
  unfold updateRow
  split <;> exact ⟨rfl, rfl⟩

theorem find?_map_updateRow (l : List ContractRow) (contractId : String)
    (u : ContractUpdate) (now : Nat) (c : ContractRow)
    (h : l.find? (fun c0 => c0.id == contractId && (false || c0.deletedAt == none))
      = some c) :
    (l.map (updateRow contractId u now)).find?
        (fun c0 => c0.id == contractId && (false || c0.deletedAt == none))
      = some (updateRow contractId u now c) := by
  induction l with
  | nil => simp at h
  | cons x xs ih =>
    have hpred : ((updateRow contractId u now x).id == contractId &&
        (false || (updateRow contractId u now x).deletedAt == none))
        = (x.id == contractId && (false || x.deletedAt == none)) := by
      rw [(updateRow_id_deletedAt contractId u now x).1,
        (updateRow_id_deletedAt contractId u now x).2]
    rw [List.find?_cons] at h
    rw [List.map_cons, List.find?_cons, hpred]
    cases hx : (x.id == contractId && (false || x.deletedAt == none)) with
    | false =>
      simp only [hx] at h ⊢
      exact ih h
    | true =>
      simp only [hx] at h ⊢
      injection h with h
      rw [h]

theorem repoUpdate_no_title_ok (s : Store) (contractId : String)
    (st : Option ContractStatus) (sa : Option Nat) (now : Nat) :
    repoUpdateContract s contractId
        { title := none, status := st, signedAt := sa } now
      = .ok { s with contracts := (s.contracts.map
          (updateRow contractId { title := none, status := st, signedAt := sa } now)) } := by
  rfl

theorem getById_repoUpdate (s s1 : Store) (contractId : String)
    (u : ContractUpdate) (now : Nat) (c : ContractRow)
    (hfind : getById s contractId false = some c)
    (hupd : repoUpdateContract s contractId u now = .ok s1) :
    getById s1 contractId false = some (updateRow contractId u now c) := by
  unfold repoUpdateContract at hupd
  by_cases ht : titleUpdateOk u = true
  · rw [if_pos ht] at hupd
    injection hupd with hupd
    subst hupd
    unfold getById at hfind ⊢
    exact find?_map_updateRow _ _ _ _ _ hfind
  · rw [if_neg ht] at hupd
    cases hupd

theorem mem_versionsOf {s : Store} {cid : String} {v : VersionRow} :
    v ∈ versionsOf s cid ↔ v ∈ s.versions ∧ v.contractId = cid := by
  unfold versionsOf
  rw [List.mem_filter]
  simp only [beq_iff_eq]

theorem foldl_pickLatest_some (l : List VersionRow) (w : VersionRow) :
    ∃ w1, l.foldl pickLatest (some w) = some w1 ∧ (w1 = w ∨ w1 ∈ l) ∧
      w.version ≤ w1.version ∧ ∀ v ∈ l, v.version ≤ w1.version := by
  induction l generalizing w with
  | nil => exact ⟨w, rfl, Or.inl rfl, le_refl _, by simp⟩
  | cons v vs ih =>
    rw [List.foldl_cons]
    rw [show pickLatest (some w) v
      = if w.version < v.version then some v else some w from rfl]
    by_cases h : w.version < v.version
    · rw [if_pos h]
      obtain ⟨w1, h1, h2, h3, h4⟩ := ih v
      refine ⟨w1, h1, ?_, le_trans (le_of_lt h) h3, ?_⟩
      · rcases h2 with h2 | h2
        · exact Or.inr (by simp [h2])
        · exact Or.inr (List.mem_cons_of_mem _ h2)
      · intro x hx
        rcases List.mem_cons.mp hx with hx | hx
        · rw [hx]; exact h3
        · exact h4 x hx
    · rw [if_neg h]
      obtain ⟨w1, h1, h2, h3, h4⟩ := ih w
      refine ⟨w1, h1, ?_, h3, ?_⟩
      · rcases h2 with h2 | h2
        · exact Or.inl h2
        · exact Or.inr (List.mem_cons_of_mem _ h2)
      · intro x hx
        rcases List.mem_cons.mp hx with hx | hx
        · rw [hx]; exact le_trans (Nat.le_of_not_lt h) h3
        · exact h4 x hx

theorem getLatest_spec (s : Store) (cid : String) :
    (versionsOf s cid = [] ∧ getLatest s cid = none) ∨
    (∃ w, getLatest s cid = some w ∧ w ∈ versionsOf s cid ∧
      ∀ v ∈ versionsOf s cid, v.version ≤ w.version) := by
  unfold getLatest
  cases h : versionsOf s cid with
  | nil => exact Or.inl ⟨rfl, rfl⟩
  | cons x xs =>
    right
    rw [List.foldl_cons]
    rw [show pickLatest none x = some x from rfl]
    obtain ⟨w1, h1, h2, h3, h4⟩ := foldl_pickLatest_some xs x
    refine ⟨w1, h1, ?_, ?_⟩
    · rcases h2 with h2 | h2
      · rw [h2]; exact List.mem_cons_self _ _
      · exact List.mem_cons_of_mem _ h2
    · intro v hv
      rcases List.mem_cons.mp hv with hv | hv
      · rw [hv]; exact h3
      · exact h4 v hv

theorem nextVersionNumber_fresh (s : Store) (cid : String) :
    ∀ v ∈ s.versions, v.contractId = cid →
      v.version ≠ nextVersionNumber s cid := by
  intro v hv hcid
  have hmem : v ∈ versionsOf s cid := mem_versionsOf.mpr ⟨hv, hcid⟩
  unfold nextVersionNumber
  rcases getLatest_spec s cid with ⟨hnil, hlat⟩ | ⟨w, hlat, _, hmax⟩
  · rw [hnil] at hmem
    cases hmem
  · rw [hlat]
    show v.version ≠ w.version + 1
    have := hmax v hmem
    omega

theorem versionCreate_ok (s : Store) (cid content : String)
    (src : VersionSource) (author fid : String) (now : Nat) :
    versionCreate s cid content src author fid now =
      .ok ({ id := fid, contractId := cid, version := nextVersionNumber s cid,
             content := content, source := src, createdBy := author,
             createdAt := now },
           { s with versions := s.versions ++
               [{ id := fid, contractId := cid,
                  version := nextVersionNumber s cid, content := content,
                  source := src, createdBy := author, createdAt := now }] }) := by
  unfold versionCreate versionCreateAt
  have hany : (s.versions.any fun v =>
      v.contractId == cid && v.version == nextVersionNumber s cid) = false := by
    rw [List.any_eq_false]
    intro v hv
    simp only [Bool.and_eq_true, beq_iff_eq, not_and]
    intro h1
    exact nextVersionNumber_fresh s cid v hv h1
  simp only [hany, Bool.false_eq_true, if_false]

theorem mem_range'_one {m k : Nat} : m ∈ List.range' 1 k ↔ 1 ≤ m ∧ m ≤ k := by
  rw [List.mem_range']
  constructor
  · rintro ⟨i, hi, rfl⟩
    omega
  · rintro ⟨h1, h2⟩
    exact ⟨m - 1, by omega, by omega⟩

/-- Claim C1: for every contract and requested status, update_status succeeds
only when the pair is in the fixed transition table (DRAFT to GENERATED or
CANCELLED; GENERATED to DRAFT, SIGNING or CANCELLED; SIGNING to SIGNED,
CANCELLED or EXPIRED; SIGNED, CANCELLED and EXPIRED have no outgoing
transitions); for every pair not in the table it fails with
InvalidTransition and leaves the store, hence the stored status and the
activity trail, unchanged. -/
theorem updateStatus_transition_guard :
    (STATUS_TRANSITIONS ContractStatus.DRAFT
        = [ContractStatus.GENERATED, ContractStatus.CANCELLED]
      ∧ STATUS_TRANSITIONS ContractStatus.GENERATED
        = [ContractStatus.DRAFT, ContractStatus.SIGNING, ContractStatus.CANCELLED]
      ∧ STATUS_TRANSITIONS ContractStatus.SIGNING
        = [ContractStatus.SIGNED, ContractStatus.CANCELLED, ContractStatus.EXPIRED]
      ∧ STATUS_TRANSITIONS ContractStatus.SIGNED = []
      ∧ STATUS_TRANSITIONS ContractStatus.CANCELLED = []
      ∧ STATUS_TRANSITIONS ContractStatus.EXPIRED = []) ∧
    ∀ (s : Store) (contractId : String) (u : CurrentUser)
      (req : UpdateStatusRequest) (freshLogId : String) (now : Nat)
      (c : ContractRow),
      getById s contractId false = some c →
      c.ownerUserId = u.id →
      (req.status ∉ STATUS_TRANSITIONS c.status →
        updateStatus s contractId u req freshLogId now
          = (.error (.invalidTransition c.status req.status), s)) ∧
      (∀ s1, updateStatus s contractId u req freshLogId now = (.ok (), s1) →
        req.status ∈ STATUS_TRANSITIONS c.status) := by
  refine ⟨⟨rfl, rfl, rfl, rfl, rfl, rfl⟩, ?_⟩
  intro s contractId u req freshLogId now c hfind hown
  constructor
  · intro hmem
    simp only [updateStatus, hfind]
    rw [if_neg (not_not_intro hown), if_pos hmem]
  · intro s1 hok
    by_contra hmem
    simp only [updateStatus, hfind] at hok
    rw [if_neg (not_not_intro hown), if_pos hmem] at hok
    simp at hok

/-- Witness for C1 at a concrete store: requesting SIGNING from DRAFT is
rejected as an invalid transition and the store is unchanged. -/
theorem updateStatus_transition_guard_wit :
    updateStatus draftStore "c1" sampleUser
        { status := .SIGNING, reason := none } "l1" 5
      = (.error (.invalidTransition .DRAFT .SIGNING), draftStore) :=
  (updateStatus_transition_guard.2 draftStore "c1" sampleUser
    { status := .SIGNING, reason := none } "l1" 5 draftRow (by decide) rfl).1
    (by decide)

/-- Claim C2: append_version computes the next version number as one more
than the stored maximum, defaulting to 1 when the contract has no versions:
whenever the recorded version numbers of a contract are exactly 1..k, the
next append succeeds, carries number k+1, and leaves the recorded numbers
exactly 1..k+1 — so iterated appends produce precisely the sequence
1, 2, 3, ... with no gaps or duplicates. -/
theorem appendVersion_sequence :
    ∀ (s : Store) (contractId : String) (k : Nat) (content : String)
      (src : VersionSource) (author freshId : String) (now : Nat),
      versionNumbersOf s contractId = List.range' 1 k →
      ∃ row s1,
        versionCreate s contractId content src author freshId now
          = .ok (row, s1) ∧
        row.version = k + 1 ∧
        versionNumbersOf s1 contractId = List.range' 1 (k + 1) := by
  intro s contractId k content src author freshId now hk
  have hnext : nextVersionNumber s contractId = k + 1 := by
    unfold nextVersionNumber
    rcases getLatest_spec s contractId with ⟨hnil, hlat⟩ | ⟨w, hlat, hwmem, hmax⟩
    · rw [hlat]
      show (1 : Nat) = k + 1
      have hempty : versionNumbersOf s contractId = [] := by
        unfold versionNumbersOf
        rw [hnil]
        rfl
      rw [hempty] at hk
      have hk0 : k = 0 := by
        cases k with
        | zero => rfl
        | succ n =>
          rw [List.range'_succ] at hk
          cases hk
      omega
    · rw [hlat]
      show w.version + 1 = k + 1
      have hwnum : w.version ∈ versionNumbersOf s contractId :=
        List.mem_map_of_mem _ hwmem
      rw [hk] at hwnum
      have hwle : w.version ≤ k := (mem_range'_one.mp hwnum).2
      have hk1 : 1 ≤ k := le_trans (mem_range'_one.mp hwnum).1 hwle
      have hkmem : (k : Nat) ∈ versionNumbersOf s contractId := by
        rw [hk]
        exact mem_range'_one.mpr ⟨hk1, le_refl k⟩
      obtain ⟨v, hvmem, hv⟩ := List.mem_map.mp hkmem
      have := hmax v hvmem
      omega
  rw [versionCreate_ok, hnext]
  refine ⟨_, _, rfl, rfl, ?_⟩
  unfold versionNumbersOf versionsOf at hk ⊢
  simp only [List.filter_append, List.map_append]
  rw [hk]
  have hone : (List.filter (fun v => v.contractId == contractId)
      [{ id := freshId, contractId := contractId, version := k + 1,
         content := content, source := src, createdBy := author,
         createdAt := now }] : List VersionRow)
      = [{ id := freshId, contractId := contractId, version := k + 1,
           content := content, source := src, createdBy := author,
           createdAt := now }] := by
    simp
  rw [hone, List.range'_1_concat]
  simp [Nat.add_comm]

/-- Witness for C2 at a concrete store already holding versions 1 and 2:
the next append succeeds with version 3 and numbers 1, 2, 3. -/
theorem appendVersion_sequence_wit :
    ∃ row s1,
      versionCreate twoVersionStore "c1" "gamma" .USER "u1" "vc" 2
        = .ok (row, s1) ∧
      row.version = 2 + 1 ∧
      versionNumbersOf s1 "c1" = List.range' 1 (2 + 1) :=
  appendVersion_sequence twoVersionStore "c1" 2 "gamma" .USER "u1" "vc" 2
    (by decide)

/-- Claim C3 counterexample: with no versions visible at read time and a
concurrently committed version 1 present at flush time,
ContractVersionRepository.create fails with the unique-constraint violation
and performs no retry, whereas the bounded-retry append described by the
spec succeeds with version 2 on its second attempt. -/
theorem versionCreate_no_retry_cx :
    versionCreateAt emptyStore raceFlushStore "c1" "y" .USER "u1" "vb" 1
      = .error (.integrityError "version_unique_per_contract")
    ∧ appendVersionRetrySpec 3 emptyStore raceFlushStore "c1" "y" .USER "u1" "vb" 1
      = .ok ({ id := "vb", contractId := "c1", version := 2, content := "y",
               source := .USER, createdBy := "u1", createdAt := 1 },
             { raceFlushStore with versions := (raceFlushStore.versions ++
                 [{ id := "vb", contractId := "c1", version := 2, content := "y",
                    source := .USER, createdBy := "u1", createdAt := 1 }]) }) := by
  constructor <;> rfl

/-- Claim C3 (amended): ContractVersionRepository.create computes the next
version number once, from the state visible at its initial read, and
performs a single insert attempt: when the computed (contract_id, version)
pair already exists at flush time the call fails with that
unique-constraint integrity error — with no internal retry — and otherwise
it succeeds, appending exactly the one row it built. -/
theorem versionCreateAt_single_attempt :
    ∀ (sRead sFlush : Store) (contractId content : String)
      (src : VersionSource) (author freshId : String) (now : Nat),
      ((∃ v ∈ sFlush.versions, v.contractId = contractId ∧
          v.version = nextVersionNumber sRead contractId) →
        versionCreateAt sRead sFlush contractId content src author freshId now
          = .error (.integrityError "version_unique_per_contract")) ∧
      ((¬ ∃ v ∈ sFlush.versions, v.contractId = contractId ∧
          v.version = nextVersionNumber sRead contractId) →
        versionCreateAt sRead sFlush contractId content src author freshId now
          = .ok ({ id := freshId, contractId := contractId,
                   version := nextVersionNumber sRead contractId,
                   content := content, source := src, createdBy := author,
                   createdAt := now },
                 { sFlush with versions := (sFlush.versions ++
                     [{ id := freshId, contractId := contractId,
                        version := nextVersionNumber sRead contractId,
                        content := content, source := src, createdBy := author,
                        createdAt := now }]) })) := by
  intro sRead sFlush contractId content src author freshId now
  have hiff : (sFlush.versions.any fun v =>
      v.contractId == contractId &&
        v.version == nextVersionNumber sRead contractId) = true ↔
      ∃ v ∈ sFlush.versions, v.contractId = contractId ∧
        v.version = nextVersionNumber sRead contractId := by
    simp [List.any_eq_true]
  constructor
  · intro hex
    simp only [versionCreateAt]
    rw [if_pos (hiff.mpr hex)]
  · intro hex
    simp only [versionCreateAt]
    rw [if_neg (fun hb => hex (hiff.mp hb))]

/-- Witness for the amended C3 at a concrete conflicting flush state. -/
theorem versionCreateAt_single_attempt_wit :
    versionCreateAt emptyStore raceFlushStore "c1" "z" .USER "u1" "vd" 2
      = .error (.integrityError "version_unique_per_contract") :=
  (versionCreateAt_single_attempt emptyStore raceFlushStore "c1" "z" .USER
    "u1" "vd" 2).1 ⟨versionOne, by decide, by decide, by decide⟩

/-- Claim C4: update_content on a contract in a terminal status (SIGNED,
CANCELLED, EXPIRED) fails with ConflictError leaving the store unchanged —
appending no version and no log entry; otherwise it appends exactly one new
ContractVersion, and: when the status is DRAFT and the source is AI it also
sets the status to GENERATED and appends one GENERATED activity entry; in
every other successful case it leaves the contracts untouched and appends
one UPDATED activity entry with details field "content". -/
theorem updateContent_behavior :
    ∀ (s : Store) (contractId : String) (u : CurrentUser)
      (req : UpdateContentRequest) (freshVersionId freshLogId : String)
      (now : Nat) (c : ContractRow),
      getById s contractId false = some c →
      c.ownerUserId = u.id →
      (c.status ∈ terminalStatuses →
        updateContent s contractId u req freshVersionId freshLogId now
          = (.error (.conflict ("Cannot update content of "
              ++ c.status.toName ++ " contract")), s)) ∧
      (c.status ∉ terminalStatuses →
        ∃ s1, updateContent s contractId u req freshVersionId freshLogId now
            = (.ok (), s1) ∧
          s1.versions = s.versions ++
            [{ id := freshVersionId, contractId := contractId,
               version := nextVersionNumber s contractId,
               content := req.content,
               source := match req.source with | some v => v | none => .USER,
               createdBy := u.id, createdAt := now }] ∧
          ((c.status = .DRAFT ∧ req.source = some .AI) →
            s1.logs = s.logs ++
              [{ id := freshLogId, contractId := contractId,
                 action := .GENERATED, userId := u.id,
                 userName := displayName u, details := .empty,
                 timestamp := now }] ∧
            ∃ c1, getById s1 contractId false = some c1 ∧
              c1.status = .GENERATED) ∧
          (¬(c.status = .DRAFT ∧ req.source = some .AI) →
            s1.contracts = s.contracts ∧
            s1.logs = s.logs ++
              [{ id := freshLogId, contractId := contractId,
                 action := .UPDATED, userId := u.id,
                 userName := displayName u, details := .field "content",
                 timestamp := now }])) := by
  intro s contractId u req freshVersionId freshLogId now c hfind hown
  constructor
  · intro hterm
    simp only [updateContent, hfind]
    rw [if_neg (not_not_intro hown), if_pos hterm]
  · intro hterm
    simp only [updateContent, hfind]
    rw [if_neg (not_not_intro hown), if_neg hterm]
    simp only [versionCreate_ok]
    by_cases hai : c.status = .DRAFT ∧ req.source = some .AI
    · rw [if_pos hai]
      simp only [repoUpdate_no_title_ok]
      refine ⟨_, rfl, rfl, ?_, ?_⟩
      · intro _
        refine ⟨rfl, ?_⟩
        have hp := List.find?_some hfind
        simp only [Bool.and_eq_true] at hp
        refine ⟨updateRow contractId
          { title := none, status := some .GENERATED, signedAt := none } now c,
          ?_, ?_⟩
        · exact find?_map_updateRow s.contracts contractId _ now c hfind
        · simp [updateRow, hp.1]
      · intro h
        exact absurd hai h
    · rw [if_neg hai]
      refine ⟨_, rfl, rfl, ?_, ?_⟩
      · intro h
        exact absurd h hai
      · intro _
        exact ⟨rfl, rfl⟩

/-- Witness for C4: updating content of the sample DRAFT contract with an AI
source succeeds. -/
theorem updateContent_behavior_wit :
    ∃ s1, updateContent draftStore "c1" sampleUser
        { content := "hello", source := some .AI } "v1" "l1" 7
      = (.ok (), s1) := by
  obtain ⟨s1, h, -, -, -⟩ := (updateContent_behavior draftStore "c1" sampleUser
    { content := "hello", source := some .AI } "v1" "l1" 7 draftRow
    (by decide) rfl).2 (by decide)
  exact ⟨s1, h⟩

theorem cancel_allowed_iff (st : ContractStatus) :
    ContractStatus.CANCELLED ∈ STATUS_TRANSITIONS st ↔ st ∉ terminalStatuses := by
  cases st <;> decide

/-- Claim C5 counterexample: requesting CANCELLED with an absent reason on a
SIGNED contract fails with InvalidTransition, not with the missing-reason
ValidationError, because update_status checks the transition table before
the reason. -/
theorem updateStatus_cancelled_cx :
    updateStatus signedStore "c5" sampleUser
        { status := .CANCELLED, reason := none } "l1" 9
      = (.error (.invalidTransition .SIGNED .CANCELLED), signedStore)
    ∧ (updateStatus signedStore "c5" sampleUser
        { status := .CANCELLED, reason := none } "l1" 9).1
      ≠ .error .missingReason := by
  constructor
  · rfl
  · show Except.error (Err.invalidTransition .SIGNED .CANCELLED)
      ≠ Except.error Err.missingReason
    simp

/-- Claim C5 (amended): requesting CANCELLED with an empty or absent reason
fails with ValidationError from every non-terminal state, but from a
terminal state the transition check fires first and it fails with
InvalidTransition instead; with a non-empty reason the request succeeds
from every non-terminal state and appends exactly one ActivityLog entry,
with action CANCELLED. -/
theorem updateStatus_cancelled_behavior :
    ∀ (s : Store) (contractId : String) (u : CurrentUser)
      (reason : Option String) (freshLogId : String) (now : Nat)
      (c : ContractRow),
      getById s contractId false = some c →
      c.ownerUserId = u.id →
      (reasonMissing reason = true →
        (c.status ∉ terminalStatuses →
          updateStatus s contractId u { status := .CANCELLED, reason := reason }
              freshLogId now
            = (.error .missingReason, s)) ∧
        (c.status ∈ terminalStatuses →
          updateStatus s contractId u { status := .CANCELLED, reason := reason }
              freshLogId now
            = (.error (.invalidTransition c.status .CANCELLED), s))) ∧
      (reasonMissing reason = false → c.status ∉ terminalStatuses →
        ∃ s1, updateStatus s contractId u
            { status := .CANCELLED, reason := reason } freshLogId now
          = (.ok (), s1) ∧
          s1.logs = s.logs ++
            [{ id := freshLogId, contractId := contractId,
               action := .CANCELLED, userId := u.id,
               userName := displayName u,
               details := .statusChange c.status .CANCELLED reason,
               timestamp := now }] ∧
          s1.versions = s.versions ∧ s1.parties = s.parties) := by
  intro s contractId u reason freshLogId now c hfind hown
  have hcan := cancel_allowed_iff c.status
  constructor
  · intro hmiss
    constructor
    · intro hnt
      have hmem : ContractStatus.CANCELLED ∈ STATUS_TRANSITIONS c.status :=
        hcan.mpr hnt
      simp only [updateStatus, hfind]
      rw [if_neg (not_not_intro hown), if_neg (not_not_intro hmem),
        if_pos ⟨trivial, hmiss⟩]
    · intro ht
      have hmem : ContractStatus.CANCELLED ∉ STATUS_TRANSITIONS c.status :=
        fun hm => (hcan.mp hm) ht
      simp only [updateStatus, hfind]
      rw [if_neg (not_not_intro hown), if_pos hmem]
  · intro hmiss hnt
    have hmem : ContractStatus.CANCELLED ∈ STATUS_TRANSITIONS c.status :=
      hcan.mpr hnt
    simp only [updateStatus, hfind]
    rw [if_neg (not_not_intro hown), if_neg (not_not_intro hmem),
      if_neg (fun h => Bool.false_ne_true (hmiss.symm.trans h.2))]
    simp only [repoUpdate_no_title_ok]
    exact ⟨_, rfl, rfl, rfl, rfl⟩

/-- Witness for the amended C5: cancelling the sample DRAFT contract with a
non-empty reason succeeds and appends the single CANCELLED entry. -/
theorem updateStatus_cancelled_behavior_wit :
    ∃ s1, updateStatus draftStore "c1" sampleUser
        { status := .CANCELLED, reason := some "mistake" } "l1" 4
      = (.ok (), s1) ∧
      s1.logs = draftStore.logs ++
        [{ id := "l1", contractId := "c1", action := .CANCELLED,
           userId := "u1", userName := "u1@example.com",
           details := .statusChange .DRAFT .CANCELLED (some "mistake"),
           timestamp := 4 }] := by
  obtain ⟨s1, h1, h2, -, -⟩ := (updateStatus_cancelled_behavior draftStore "c1"
    sampleUser (some "mistake") "l1" 4 draftRow (by decide) rfl).2
    (by decide) (by decide)
  exact ⟨s1, h1, h2⟩

/-- Claim C6 counterexample: adding a party whose email already exists on
the same contract is rejected only by the database unique constraint, which
surfaces as an unhandled integrity error (generic 500), not as the
ConflictError/DuplicateEmail business error the claim states; the service
performs no duplicate-email check. -/
theorem addParty_duplicate_cx :
    addParty partyStore "c1" sampleUser
        { role := .GUEST, name := "Bob", email := "ann@example.com",
          order := none } "p9" 3
      = (.error (.integrityError "party_email_unique_per_contract"), partyStore)
    ∧ Err.isBusinessError (.integrityError "party_email_unique_per_contract")
      = false := by
  constructor <;> rfl

/-- Claim C6 (amended): on a live, owned, non-terminal contract, add_party
fails whenever a party with the same email already exists on the same
contract — but with the raw unique-constraint integrity error (surfaced as
a generic infrastructure failure), not ConflictError/DuplicateEmail — and
succeeds when no party on this contract has that email, in particular when
the same email exists only on a different contract. -/
theorem addParty_email_unique :
    ∀ (s : Store) (contractId : String) (u : CurrentUser)
      (req : AddPartyRequest) (freshPartyId : String) (now : Nat)
      (c : ContractRow),
      getById s contractId false = some c →
      c.ownerUserId = u.id →
      c.status ∉ terminalStatuses →
      ((∃ p ∈ s.parties, p.contractId = contractId ∧ p.email = req.email) →
        addParty s contractId u req freshPartyId now
          = (.error (.integrityError "party_email_unique_per_contract"), s)) ∧
      ((¬ ∃ p ∈ s.parties, p.contractId = contractId ∧ p.email = req.email) →
        addParty s contractId u req freshPartyId now
          = (.ok { id := freshPartyId, contractId := contractId,
                   role := req.role, name := req.name, email := req.email,
                   signatureStatus := .PENDING, signedAt := none,
                   signingOrder := orderValue req.order, createdAt := now },
             { s with parties := (s.parties ++
                 [{ id := freshPartyId, contractId := contractId,
                    role := req.role, name := req.name, email := req.email,
                    signatureStatus := .PENDING, signedAt := none,
                    signingOrder := orderValue req.order,
                    createdAt := now }]) })) := by
  intro s contractId u req freshPartyId now c hfind hown hterm
  have hiff : (s.parties.any fun p =>
      p.contractId == contractId && p.email == req.email) = true ↔
      ∃ p ∈ s.parties, p.contractId = contractId ∧ p.email = req.email := by
    simp [List.any_eq_true]
  constructor
  · intro hex
    simp only [addParty, hfind]
    rw [if_neg (not_not_intro hown), if_neg hterm]
    simp only [partyCreate]
    rw [if_pos (hiff.mpr hex)]
  · intro hex
    simp only [addParty, hfind]
    rw [if_neg (not_not_intro hown), if_neg hterm]
    simp only [partyCreate]
    rw [if_neg (fun hb => hex (hiff.mp hb))]

/-- Witness for the amended C6: the email already present on contract c1 can
still be added to the different contract c2. -/
theorem addParty_email_unique_wit :
    addParty partyStore "c2" sampleUser
        { role := .GUEST, name := "Ann", email := "ann@example.com",
          order := none } "p2" 5
      = (.ok { id := "p2", contractId := "c2", role := .GUEST, name := "Ann",
               email := "ann@example.com", signatureStatus := .PENDING,
               signedAt := none, signingOrder := 1, createdAt := 5 },
         { partyStore with parties := (partyStore.parties ++
             [{ id := "p2", contractId := "c2", role := .GUEST, name := "Ann",
                email := "ann@example.com", signatureStatus := .PENDING,
                signedAt := none, signingOrder := 1, createdAt := 5 }]) }) :=
  (addParty_email_unique partyStore "c2" sampleUser
    { role := .GUEST, name := "Ann", email := "ann@example.com",
      order := none } "p2" 5 otherDraftRow (by decide) rfl (by decide)).2
    (by decide)

theorem filter_filter_live (p : ContractRow → Bool)
    (h : ∀ c, p c = true → c.deletedAt = none) (l : List ContractRow) :
    (l.filter (fun c => c.deletedAt == none)).filter p = l.filter p := by
  induction l with
  | nil => rfl
  | cons x xs ih =>
    cases hx : (x.deletedAt == none) with
    | true => simp only [List.filter_cons, hx, if_true, ih]
    | false =>
      have hp : p x = false := by
        cases hpx : p x
        · rfl
        · exfalso
          rw [h x hpx] at hx
          simp at hx
      simp only [List.filter_cons, hx, hp, Bool.false_eq_true, if_false, ih]

theorem find?_filter_live (p : ContractRow → Bool)
    (h : ∀ c, p c = true → c.deletedAt = none) (l : List ContractRow) :
    (l.filter (fun c => c.deletedAt == none)).find? p = l.find? p := by
  induction l with
  | nil => rfl
  | cons x xs ih =>
    cases hx : (x.deletedAt == none) with
    | true => simp only [List.filter_cons, hx, if_true, List.find?_cons, ih]
    | false =>
      have hp : p x = false := by
        cases hpx : p x
        · rfl
        · exfalso
          rw [h x hpx] at hx
          simp at hx
      simp only [List.filter_cons, hx, Bool.false_eq_true, if_false,
        List.find?_cons, hp, ih]

/-- Claim C7 counterexample: a soft-deleted SIGNED contract is counted by
the signed-this-month statistic even though every other component of
get_stats ignores it, because the signed-this-month query omits the
deleted_at filter. -/
theorem getStats_deleted_cx :
    (getStats deletedSignedStore "u1" 50).signedThisMonth = 1
    ∧ (getStats deletedSignedStore "u1" 50).total = 0 := by
  constructor <;> rfl

/-- Claim C7 (amended): get, list, recent, pending and the total, by-status
and pending-signatures statistics consider only contracts with null
deleted_at — removing the soft-deleted rows from the store does not change
any of them — while the signed-this-month statistic omits the deleted_at
filter (see the counterexample; such rows are unreachable through the
service, which refuses to delete SIGNED contracts). -/
theorem readPaths_ignore_deleted :
    ∀ (s : Store) (ownerUserId contractId : String) (f : ListFilters)
      (page pageSize limit monthStart : Nat) (sortBy sortOrder : String),
      getById (liveOnly s) contractId false = getById s contractId false ∧
      listContracts (liveOnly s) ownerUserId f page pageSize sortBy sortOrder
        = listContracts s ownerUserId f page pageSize sortBy sortOrder ∧
      getRecent (liveOnly s) ownerUserId limit = getRecent s ownerUserId limit ∧
      getPending (liveOnly s) ownerUserId = getPending s ownerUserId ∧
      (getStats (liveOnly s) ownerUserId monthStart).total
        = (getStats s ownerUserId monthStart).total ∧
      (∀ st, (getStats (liveOnly s) ownerUserId monthStart).byStatus st
        = (getStats s ownerUserId monthStart).byStatus st) ∧
      (getStats (liveOnly s) ownerUserId monthStart).pendingSignatures
        = (getStats s ownerUserId monthStart).pendingSignatures := by
  intro s ownerUserId contractId f page pageSize limit monthStart sortBy sortOrder
  have hlive : ∀ c : ContractRow, liveOwned ownerUserId c = true →
      c.deletedAt = none := by
    intro c hc
    simp only [liveOwned, Bool.and_eq_true, beq_iff_eq] at hc
    exact hc.2
  refine ⟨?_, ?_, ?_, ?_, ?_, ?_, ?_⟩
  · simp only [getById, liveOnly]
    apply find?_filter_live
    intro c hc
    simp only [Bool.and_eq_true, Bool.false_or, beq_iff_eq] at hc
    exact hc.2
  · simp only [listContracts, liveOnly]
    rw [filter_filter_live]
    intro c hc
    simp only [listPred, Bool.and_eq_true, beq_iff_eq] at hc
    exact hc.1.1.1.1.1.2
  · simp only [getRecent, liveOnly]
    rw [filter_filter_live _ hlive]
  · simp only [getPending, liveOnly]
    rw [filter_filter_live]
    intro c hc
    simp only [Bool.and_eq_true] at hc
    exact hlive c hc.1
  · simp only [getStats, liveOnly]
    rw [filter_filter_live _ hlive]
  · intro st
    simp only [getStats, liveOnly]
    rw [filter_filter_live]
    intro c hc
    simp only [Bool.and_eq_true] at hc
    exact hlive c hc.1
  · simp only [getStats, liveOnly]
    rw [filter_filter_live]
    intro c hc
    simp only [Bool.and_eq_true] at hc
    exact hlive c hc.1

theorem titleInv_of_contracts_eq {s s1 : Store}
    (h : s1.contracts = s.contracts) (hInv : TitleInv s) : TitleInv s1 := by
  intro x hx
  rw [h] at hx
  exact hInv x hx

theorem titleInv_logActivity {s : Store} {contractId : String}
    {a : ActivityAction} {u : CurrentUser} {d : Option LogDetails}
    {freshId : String} {now : Nat} (hInv : TitleInv s) :
    TitleInv (logActivity s contractId a u d freshId now) := hInv

theorem titleInv_set_versions {s : Store} {vs : List VersionRow}
    (hInv : TitleInv s) : TitleInv { s with versions := vs } := hInv

theorem titleInv_insert {s s1 : Store} {c : ContractRow} (hInv : TitleInv s)
    (h : contractInsert s c = .ok s1) : TitleInv s1 := by
  unfold contractInsert at h
  by_cases hc : 3 ≤ c.title.length
  · rw [if_pos hc] at h
    injection h with h
    subst h
    intro x hx
    rcases List.mem_append.mp hx with hx | hx
    · exact hInv x hx
    · rw [List.mem_singleton.mp hx]
      exact hc
  · rw [if_neg hc] at h
    cases h

theorem titleInv_repoUpdate {s s1 : Store} {contractId : String}
    {u1 : ContractUpdate} {now : Nat} (hInv : TitleInv s)
    (h : repoUpdateContract s contractId u1 now = .ok s1) : TitleInv s1 := by
  unfold repoUpdateContract at h
  by_cases ht : titleUpdateOk u1 = true
  · rw [if_pos ht] at h
    injection h with h
    subst h
    intro x hx
    obtain ⟨y, hy, rfl⟩ := List.mem_map.mp hx
    unfold updateRow
    by_cases hid : (y.id == contractId) = true
    · rw [if_pos hid]
      show 3 ≤ (match u1.title with | some t => t | none => y.title).length
      unfold titleUpdateOk at ht
      cases hu : u1.title with
      | some t =>
        rw [hu] at ht
        exact of_decide_eq_true ht
      | none => exact hInv y hy
    · rw [if_neg hid]
      exact hInv y hy
  · rw [if_neg ht] at h
    cases h

theorem titleInv_softDelete {s : Store} {contractId : String} {now : Nat}
    (hInv : TitleInv s) : TitleInv (softDelete s contractId now).2 := by
  intro x hx
  obtain ⟨y, hy, rfl⟩ := List.mem_map.mp hx
  by_cases hc : (y.id == contractId && y.deletedAt == none) = true
  · rw [if_pos hc]
    exact hInv y hy
  · rw [if_neg hc]
    exact hInv y hy

theorem versionCreateAt_ok_contracts {sRead sFlush s1 : Store}
    {contractId content : String} {src : VersionSource}
    {author freshId : String} {now : Nat} {v : VersionRow}
    (h : versionCreateAt sRead sFlush contractId content src author freshId now
      = .ok (v, s1)) :
    s1.contracts = sFlush.contracts ∧ s1.parties = sFlush.parties ∧
    s1.logs = sFlush.logs := by
  simp only [versionCreateAt] at h
  by_cases hc : (sFlush.versions.any fun w => w.contractId == contractId &&
      w.version == nextVersionNumber sRead contractId) = true
  · rw [if_pos hc] at h
    cases h
  · rw [if_neg hc] at h
    injection h with h
    rw [Prod.mk.injEq] at h
    rw [← h.2]
    exact ⟨rfl, rfl, rfl⟩

theorem partyCreate_ok_shape {s s1 : Store} {contractId : String}
    {role : PartyRole} {name email : String} {order : Nat} {freshId : String}
    {now : Nat} {p : PartyRow}
    (h : partyCreate s contractId role name email order freshId now
      = .ok (p, s1)) :
    s1.contracts = s.contracts ∧
    s1.parties = s.parties ++
      [{ id := freshId, contractId := contractId, role := role, name := name,
         email := email, signatureStatus := .PENDING, signedAt := none,
         signingOrder := order, createdAt := now }] := by
  simp only [partyCreate] at h
  by_cases hc : (s.parties.any fun q =>
      q.contractId == contractId && q.email == email) = true
  · rw [if_pos hc] at h
    cases h
  · rw [if_neg hc] at h
    injection h with h
    rw [Prod.mk.injEq] at h
    rw [← h.2]
    exact ⟨rfl, rfl⟩

/-- Claim C8: every contract reachable through the public operations has a
title of length at least 3: create_contract fails with the pydantic
ValidationError when the title is shorter than 3 characters, and every
mutating operation of the service — in particular the metadata update that
patches the title, whose pydantic schema carries no length bound but whose
write is stopped by the contracts_title_min_length check constraint —
preserves the stored-title invariant. -/
theorem title_invariant :
    (∀ (s : Store) (u : CurrentUser) (req : CreateContractRequest)
      (freshContractId freshLogId : String) (now : Nat),
      req.title.length < 3 →
      createContract s u req freshContractId freshLogId now
        = (.error (.validation "title: min_length 3"), s)) ∧
    (∀ (s : Store) (op : Op), TitleInv s → TitleInv (applyOp s op)) := by
  constructor
  · intro s u req freshContractId freshLogId now hlen
    simp only [createContract]
    rw [if_pos hlen]
  · intro s op hInv
    cases op with
    | create u req fid lid now =>
      show TitleInv (createContract s u req fid lid now).2
      simp only [createContract]
      by_cases hlen : req.title.length < 3
      · rw [if_pos hlen]
        exact hInv
      · rw [if_neg hlen]
        cases hins : contractInsert s
          { id := fid, title := req.title, contractType := req.contractType,
            templateId := req.templateId, ownerUserId := u.id,
            status := .DRAFT, documentUrl := none, documentHash := none,
            createdAt := now, updatedAt := now, signedAt := none,
            deletedAt := none } with
        | error e => exact hInv
        | ok s1 =>
          simp only []
          exact titleInv_logActivity (titleInv_insert hInv hins)
    | updateMeta cid u req lid now =>
      show TitleInv (updateContract s cid u req lid now).2
      simp only [updateContract]
      cases hg : getById s cid false with
      | none => exact hInv
      | some c =>
        simp only []
        by_cases hown : c.ownerUserId ≠ u.id
        · rw [if_pos hown]
          exact hInv
        · rw [if_neg hown]
          cases ht : req.title with
          | none => exact hInv
          | some t =>
            simp only []
            cases hupd : repoUpdateContract s cid
                { title := some t, status := none, signedAt := none } now with
            | error e => exact hInv
            | ok s1 =>
              simp only []
              exact titleInv_logActivity (titleInv_repoUpdate hInv hupd)
    | deleteC cid u now =>
      show TitleInv (deleteContract s cid u now).2
      simp only [deleteContract]
      cases hg : getById s cid false with
      | none => exact hInv
      | some c =>
        simp only []
        by_cases hown : c.ownerUserId ≠ u.id
        · rw [if_pos hown]
          exact hInv
        · rw [if_neg hown]
          by_cases hsig : c.status = .SIGNED
          · rw [if_pos hsig]
            exact hInv
          · rw [if_neg hsig]
            exact titleInv_softDelete hInv
    | duplicateC cid u fid vid lid now =>
      show TitleInv (duplicateContract s cid u fid vid lid now).2
      simp only [duplicateContract]
      cases hg : getById s cid false with
      | none => exact hInv
      | some c =>
        simp only []
        by_cases hown : c.ownerUserId ≠ u.id
        · rw [if_pos hown]
          exact hInv
        · rw [if_neg hown]
          cases hins : contractInsert s
            { id := fid, title := c.title ++ " (Copy)",
              contractType := c.contractType, templateId := c.templateId,
              ownerUserId := u.id, status := .DRAFT,
              documentUrl := c.documentUrl, documentHash := c.documentHash,
              createdAt := now, updatedAt := now, signedAt := none,
              deletedAt := none } with
          | error e => exact hInv
          | ok s1 =>
            simp only []
            cases hlat : getLatest s cid with
            | none =>
              exact titleInv_logActivity (titleInv_insert hInv hins)
            | some latest =>
              simp only []
              by_cases hany : (s1.versions.any fun v =>
                  v.contractId == fid && v.version == 1) = true
              · rw [if_pos hany]
                exact titleInv_insert hInv hins
              · rw [if_neg hany]
                exact titleInv_logActivity
                  (titleInv_set_versions (titleInv_insert hInv hins))
    | content cid u req vid lid now =>
      show TitleInv (updateContent s cid u req vid lid now).2
      simp only [updateContent]
      cases hg : getById s cid false with
      | none => exact hInv
      | some c =>
        simp only []
        by_cases hown : c.ownerUserId ≠ u.id
        · rw [if_pos hown]
          exact hInv
        · rw [if_neg hown]
          by_cases hterm : c.status ∈ terminalStatuses
          · rw [if_pos hterm]
            exact hInv
          · rw [if_neg hterm]
            cases hvc : versionCreate s cid req.content
                (match req.source with | some v => v | none => VersionSource.USER)
                u.id vid now with
            | error e => exact hInv
            | ok r =>
              obtain ⟨v1, s1⟩ := r
              simp only []
              have h1 : TitleInv s1 :=
                titleInv_of_contracts_eq (versionCreateAt_ok_contracts hvc).1 hInv
              by_cases hai : c.status = .DRAFT ∧ req.source = some .AI
              · rw [if_pos hai]
                cases hupd : repoUpdateContract s1 cid
                    { title := none, status := some .GENERATED,
                      signedAt := none } now with
                | error e => exact h1
                | ok s2 =>
                  simp only []
                  exact titleInv_logActivity (titleInv_repoUpdate h1 hupd)
              · rw [if_neg hai]
                exact titleInv_logActivity h1
    | statusChange cid u req lid now =>
      show TitleInv (updateStatus s cid u req lid now).2
      simp only [updateStatus]
      cases hg : getById s cid false with
      | none => exact hInv
      | some c =>
        simp only []
        by_cases hown : c.ownerUserId ≠ u.id
        · rw [if_pos hown]
          exact hInv
        · rw [if_neg hown]
          by_cases hmem : req.status ∉ STATUS_TRANSITIONS c.status
          · rw [if_pos hmem]
            exact hInv
          · rw [if_neg hmem]
            by_cases hcr : req.status = .CANCELLED ∧ reasonMissing req.reason = true
            · rw [if_pos hcr]
              exact hInv
            · rw [if_neg hcr]
              cases hupd : repoUpdateContract s cid
                  { title := none, status := some req.status,
                    signedAt := if req.status = .SIGNED then some now else none }
                  now with
              | error e => exact hInv
              | ok s1 =>
                simp only []
                exact titleInv_logActivity (titleInv_repoUpdate hInv hupd)
    | partyAdd cid u req pid now =>
      show TitleInv (addParty s cid u req pid now).2
      simp only [addParty]
      cases hg : getById s cid false with
      | none => exact hInv
      | some c =>
        simp only []
        by_cases hown : c.ownerUserId ≠ u.id
        · rw [if_pos hown]
          exact hInv
        · rw [if_neg hown]
          by_cases hterm : c.status ∈ terminalStatuses
          · rw [if_pos hterm]
            exact hInv
          · rw [if_neg hterm]
            cases hpc : partyCreate s cid req.role req.name req.email
                (orderValue req.order) pid now with
            | error e => exact hInv
            | ok r =>
              obtain ⟨p, s1⟩ := r
              simp only []
              exact titleInv_of_contracts_eq (partyCreate_ok_shape hpc).1 hInv
    | partyRemove cid pid u =>
      show TitleInv (removeParty s cid pid u).2
      simp only [removeParty]
      cases hg : getById s cid false with
      | none => exact hInv
      | some c =>
        simp only []
        by_cases hown : c.ownerUserId ≠ u.id
        · rw [if_pos hown]
          exact hInv
        · rw [if_neg hown]
          cases hp : getPartyById s pid with
          | none => exact hInv
          | some p =>
            simp only []
            by_cases hpc : p.contractId ≠ cid
            · rw [if_pos hpc]
              exact hInv
            · rw [if_neg hpc]
              by_cases hsig : p.signatureStatus = .SIGNED
              · rw [if_pos hsig]
                exact hInv
              · rw [if_neg hsig]
                exact hInv

/-- Witness for C8: creating with a two-character title fails validation,
and a concrete metadata update preserves the title invariant. -/
theorem title_invariant_wit :
    createContract draftStore sampleUser
        { title := "ab", templateId := "t1", contractType := "lease" }
        "c9" "l9" 1
      = (.error (.validation "title: min_length 3"), draftStore)
    ∧ TitleInv (applyOp draftStore
        (Op.updateMeta "c1" sampleUser { title := some "Renamed Lease" } "l2" 6)) :=
  ⟨title_invariant.1 draftStore sampleUser
      { title := "ab", templateId := "t1", contractType := "lease" }
      "c9" "l9" 1 (by decide),
   title_invariant.2 draftStore
      (Op.updateMeta "c1" sampleUser { title := some "Renamed Lease" } "l2" 6)
      (by unfold TitleInv; decide)⟩

/-- Claim C9: get_public_view never inspects its token argument — its result
is the same for any two tokens — and for every live contract id it succeeds
with the title, latest-version content and document URL, performing no
token validation, party check or ownership check. -/
theorem getPublicView_token_blind :
    (∀ (s : Store) (contractId t1 t2 : String),
      getPublicView s contractId t1 = getPublicView s contractId t2) ∧
    (∀ (s : Store) (contractId tok : String) (c : ContractRow),
      getById s contractId false = some c →
      getPublicView s contractId tok
        = .ok { id := c.id, title := c.title,
                content := match getLatest s contractId with
                  | some v => some v.content
                  | none => none,
                documentUrl := c.documentUrl }) := by
  constructor
  · intro s contractId t1 t2
    rfl
  · intro s contractId tok c hfind
    simp only [getPublicView, hfind]

/-- Witness for C9: the public view of the sample contract is served for an
arbitrary token, exposing the latest-version content. -/
theorem getPublicView_token_blind_wit :
    getPublicView twoVersionStore "c1" "whatever"
      = .ok { id := "c1", title := "Lease Agreement",
              content := some "beta", documentUrl := none } :=
  (getPublicView_token_blind.2 twoVersionStore "c1" "whatever" draftRow
    (by decide)).trans (by rfl)

theorem allPending_of_parties_eq {s s1 : Store} (h : s1.parties = s.parties)
    (hInv : AllPending s) : AllPending s1 := by
  intro p hp
  rw [h] at hp
  exact hInv p hp

theorem allPending_logActivity {s : Store} {contractId : String}
    {a : ActivityAction} {u : CurrentUser} {d : Option LogDetails}
    {freshId : String} {now : Nat} (hInv : AllPending s) :
    AllPending (logActivity s contractId a u d freshId now) := hInv

theorem allPending_set_versions {s : Store} {vs : List VersionRow}
    (hInv : AllPending s) : AllPending { s with versions := vs } := hInv

theorem allPending_softDelete {s : Store} {contractId : String} {now : Nat}
    (hInv : AllPending s) : AllPending (softDelete s contractId now).2 := hInv

theorem contractInsert_ok_shape {s s1 : Store} {c : ContractRow}
    (h : contractInsert s c = .ok s1) :
    s1.versions = s.versions ∧ s1.parties = s.parties ∧ s1.logs = s.logs := by
  unfold contractInsert at h
  by_cases hc : 3 ≤ c.title.length
  · rw [if_pos hc] at h
    injection h with h
    rw [← h]
    exact ⟨rfl, rfl, rfl⟩
  · rw [if_neg hc] at h
    cases h

theorem repoUpdate_ok_parties {s s1 : Store} {contractId : String}
    {u1 : ContractUpdate} {now : Nat}
    (h : repoUpdateContract s contractId u1 now = .ok s1) :
    s1.parties = s.parties := by
  unfold repoUpdateContract at h
  by_cases ht : titleUpdateOk u1 = true
  · rw [if_pos ht] at h
    injection h with h
    rw [← h]
  · rw [if_neg ht] at h
    cases h

theorem allPending_partyCreate {s s1 : Store} {contractId : String}
    {role : PartyRole} {name email : String} {order : Nat} {freshId : String}
    {now : Nat} {p : PartyRow} (hInv : AllPending s)
    (h : partyCreate s contractId role name email order freshId now
      = .ok (p, s1)) : AllPending s1 := by
  obtain ⟨-, hp⟩ := partyCreate_ok_shape h
  intro q hq
  rw [hp] at hq
  rcases List.mem_append.mp hq with hq | hq
  · exact hInv q hq
  · rw [List.mem_singleton.mp hq]

theorem allPending_partyDelete {s : Store} {partyId contractId : String}
    (hInv : AllPending s) : AllPending (partyDelete s partyId contractId).2 := by
  intro q hq
  exact hInv q (List.mem_of_mem_filter hq)

/-- Claim C10: no operation of the contracts service ever changes a party
signature status: add_party creates every party with the PENDING column
default, ContractPartyRepository.update_status is called by no service
operation, so across every public mutating operation all stored parties
keep signature status PENDING — and consequently the SIGNED-conflict branch
of remove_party can never fire. -/
theorem partyStatus_never_changes :
    (∀ (s : Store) (op : Op), AllPending s → AllPending (applyOp s op)) ∧
    (∀ (s : Store) (contractId partyId : String) (u : CurrentUser),
      AllPending s →
      (removeParty s contractId partyId u).1
        ≠ .error (.conflict "Cannot remove party that has already signed")) := by
  constructor
  · intro s op hInv
    cases op with
    | create u req fid lid now =>
      show AllPending (createContract s u req fid lid now).2
      simp only [createContract]
      by_cases hlen : req.title.length < 3
      · rw [if_pos hlen]
        exact hInv
      · rw [if_neg hlen]
        cases hins : contractInsert s
          { id := fid, title := req.title, contractType := req.contractType,
            templateId := req.templateId, ownerUserId := u.id,
            status := .DRAFT, documentUrl := none, documentHash := none,
            createdAt := now, updatedAt := now, signedAt := none,
            deletedAt := none } with
        | error e => exact hInv
        | ok s1 =>
          simp only []
          exact allPending_logActivity
            (allPending_of_parties_eq (contractInsert_ok_shape hins).2.1 hInv)
    | updateMeta cid u req lid now =>
      show AllPending (updateContract s cid u req lid now).2
      simp only [updateContract]
      cases hg : getById s cid false with
      | none => exact hInv
      | some c =>
        simp only []
        by_cases hown : c.ownerUserId ≠ u.id
        · rw [if_pos hown]
          exact hInv
        · rw [if_neg hown]
          cases ht : req.title with
          | none => exact hInv
          | some t =>
            simp only []
            cases hupd : repoUpdateContract s cid
                { title := some t, status := none, signedAt := none } now with
            | error e => exact hInv
            | ok s1 =>
              simp only []
              exact allPending_logActivity
                (allPending_of_parties_eq (repoUpdate_ok_parties hupd) hInv)
    | deleteC cid u now =>
      show AllPending (deleteContract s cid u now).2
      simp only [deleteContract]
      cases hg : getById s cid false with
      | none => exact hInv
      | some c =>
        simp only []
        by_cases hown : c.ownerUserId ≠ u.id
        · rw [if_pos hown]
          exact hInv
        · rw [if_neg hown]
          by_cases hsig : c.status = .SIGNED
          · rw [if_pos hsig]
            exact hInv
          · rw [if_neg hsig]
            exact allPending_softDelete hInv
    | duplicateC cid u fid vid lid now =>
      show AllPending (duplicateContract s cid u fid vid lid now).2
      simp only [duplicateContract]
      cases hg : getById s cid false with
      | none => exact hInv
      | some c =>
        simp only []
        by_cases hown : c.ownerUserId ≠ u.id
        · rw [if_pos hown]
          exact hInv
        · rw [if_neg hown]
          cases hins : contractInsert s
            { id := fid, title := c.title ++ " (Copy)",
              contractType := c.contractType, templateId := c.templateId,
              ownerUserId := u.id, status := .DRAFT,
              documentUrl := c.documentUrl, documentHash := c.documentHash,
              createdAt := now, updatedAt := now, signedAt := none,
              deletedAt := none } with
          | error e => exact hInv
          | ok s1 =>
            simp only []
            have h1 : AllPending s1 :=
              allPending_of_parties_eq (contractInsert_ok_shape hins).2.1 hInv
            cases hlat : getLatest s cid with
            | none => exact allPending_logActivity h1
            | some latest =>
              simp only []
              by_cases hany : (s1.versions.any fun v =>
                  v.contractId == fid && v.version == 1) = true
              · rw [if_pos hany]
                exact h1
              · rw [if_neg hany]
                exact allPending_logActivity (allPending_set_versions h1)
    | content cid u req vid lid now =>
      show AllPending (updateContent s cid u req vid lid now).2
      simp only [updateContent]
      cases hg : getById s cid false with
      | none => exact hInv
      | some c =>
        simp only []
        by_cases hown : c.ownerUserId ≠ u.id
        · rw [if_pos hown]
          exact hInv
        · rw [if_neg hown]
          by_cases hterm : c.status ∈ terminalStatuses
          · rw [if_pos hterm]
            exact hInv
          · rw [if_neg hterm]
            cases hvc : versionCreate s cid req.content
                (match req.source with | some v => v | none => VersionSource.USER)
                u.id vid now with
            | error e => exact hInv
            | ok r =>
              obtain ⟨v1, s1⟩ := r
              simp only []
              have h1 : AllPending s1 :=
                allPending_of_parties_eq
                  (versionCreateAt_ok_contracts hvc).2.1 hInv
              by_cases hai : c.status = .DRAFT ∧ req.source = some .AI
              · rw [if_pos hai]
                cases hupd : repoUpdateContract s1 cid
                    { title := none, status := some .GENERATED,
                      signedAt := none } now with
                | error e => exact h1
                | ok s2 =>
                  simp only []
                  exact allPending_logActivity
                    (allPending_of_parties_eq (repoUpdate_ok_parties hupd) h1)
              · rw [if_neg hai]
                exact allPending_logActivity h1
    | statusChange cid u req lid now =>
      show AllPending (updateStatus s cid u req lid now).2
      simp only [updateStatus]
      cases hg : getById s cid false with
      | none => exact hInv
      | some c =>
        simp only []
        by_cases hown : c.ownerUserId ≠ u.id
        · rw [if_pos hown]
          exact hInv
        · rw [if_neg hown]
          by_cases hmem : req.status ∉ STATUS_TRANSITIONS c.status
          · rw [if_pos hmem]
            exact hInv
          · rw [if_neg hmem]
            by_cases hcr : req.status = .CANCELLED ∧ reasonMissing req.reason = true
            · rw [if_pos hcr]
              exact hInv
            · rw [if_neg hcr]
              cases hupd : repoUpdateContract s cid
                  { title := none, status := some req.status,
                    signedAt := if req.status = .SIGNED then some now else none }
                  now with
              | error e => exact hInv
              | ok s1 =>
                simp only []
                exact allPending_logActivity
                  (allPending_of_parties_eq (repoUpdate_ok_parties hupd) hInv)
    | partyAdd cid u req pid now =>
      show AllPending (addParty s cid u req pid now).2
      simp only [addParty]
      cases hg : getById s cid false with
      | none => exact hInv
      | some c =>
        simp only []
        by_cases hown : c.ownerUserId ≠ u.id
        · rw [if_pos hown]
          exact hInv
        · rw [if_neg hown]
          by_cases hterm : c.status ∈ terminalStatuses
          · rw [if_pos hterm]
            exact hInv
          · rw [if_neg hterm]
            cases hpc : partyCreate s cid req.role req.name req.email
                (orderValue req.order) pid now with
            | error e => exact hInv
            | ok r =>
              obtain ⟨p, s1⟩ := r
              simp only []
              exact allPending_partyCreate hInv hpc
    | partyRemove cid pid u =>
      show AllPending (removeParty s cid pid u).2
      simp only [removeParty]
      cases hg : getById s cid false with
      | none => exact hInv
      | some c =>
        simp only []
        by_cases hown : c.ownerUserId ≠ u.id
        · rw [if_pos hown]
          exact hInv
        · rw [if_neg hown]
          cases hp : getPartyById s pid with
          | none => exact hInv
          | some p =>
            simp only []
            by_cases hpcid : p.contractId ≠ cid
            · rw [if_pos hpcid]
              exact hInv
            · rw [if_neg hpcid]
              by_cases hsig : p.signatureStatus = .SIGNED
              · rw [if_pos hsig]
                exact hInv
              · rw [if_neg hsig]
                exact allPending_partyDelete hInv
  · intro s contractId partyId u hAll
    simp only [removeParty]
    cases hg : getById s contractId false with
    | none => simp
    | some c =>
      simp only []
      by_cases hown : c.ownerUserId ≠ u.id
      · rw [if_pos hown]
        simp
      · rw [if_neg hown]
        cases hp : getPartyById s partyId with
        | none => simp
        | some p =>
          simp only []
          by_cases hpcid : p.contractId ≠ contractId
          · rw [if_pos hpcid]
            simp
          · rw [if_neg hpcid]
            by_cases hsig : p.signatureStatus = .SIGNED
            · exfalso
              have hmem : p ∈ s.parties := List.mem_of_find?_eq_some hp
              have hpend := hAll p hmem
              rw [hpend] at hsig
              exact absurd hsig (by decide)
            · rw [if_neg hsig]
              simp

/-- Witness for C10: adding a party keeps every stored party PENDING, and
removing the sample pending party is not blocked by the SIGNED-conflict
branch. -/
theorem partyStatus_never_changes_wit :
    AllPending (applyOp partyStore
      (Op.partyAdd "c2" sampleUser
        { role := .WITNESS, name := "Wit", email := "wit@example.com",
          order := none } "p3" 6))
    ∧ (removeParty partyStore "c1" "p1" sampleUser).1
      ≠ .error (.conflict "Cannot remove party that has already signed") :=
  ⟨partyStatus_never_changes.1 partyStore
      (Op.partyAdd "c2" sampleUser
        { role := .WITNESS, name := "Wit", email := "wit@example.com",
          order := none } "p3" 6)
      (by unfold AllPending; decide),
   partyStatus_never_changes.2 partyStore "c1" "p1" sampleUser
      (by unfold AllPending; decide)⟩

end Contractify
